import Mathlib

/-!
# Virtual-memory simulator (`pa3.c`): embedding and checked properties

The C globals (`current`, `processes`, `ptbr`, `tlb`, `mapcounts`) become the
fields of one explicit `State`; every C function becomes a function on `State`.

Conventions of the embedding

* `unsigned int` values are `Nat`; `++` and `--` on a map count are taken
  modulo `2 ^ 32`.
* C arrays (`tlb[]`, `mapcounts[]`, `outer_ptes[]`, `ptes[]`) are functions on
  `Nat`; loops range over the bounds the source uses (128 frames, 256 TLB
  entries, 16 x 16 page-table slots).  An index is not checked against the
  array's length: the frame numbers the code stores in a PTE come from the
  scan `0 .. 127` or are 0.
* A `NULL` inner-directory pointer is `none`; dereferencing it is the outcome
  `nullDeref`.
* A non-void function whose control reaches its closing brace without a
  `return` has the outcome `fellOff`: no value is returned.
* `malloc` does not initialise the block it returns.  The `struct process`
  that `switch_process` allocates (line 379) is taken from `State.heap`: its
  `outer_ptes` slots hold whatever the heap holds, `NULL` or a non-NULL
  garbage pointer.  Line 388 reads such a slot; a store through a garbage
  pointer is undefined behaviour in C (the run may fault), which the fork
  loop records in the ghost flag `ForkAcc.wild` while it goes on as if the
  store had reached the memory the heap gives for that pointer.  The PTEs of
  a `struct pte_directory` fresh from `malloc` (lines 184, 390) are taken to
  be zero.
* Every process owns its page table.  `ptbr` is a variable of the state: it
  holds `&current->pagetable` or the address of a page table outside the
  process structures; `alloc_page` and `lookup_tlb` work through it and both
  paths of `switch_process` assign it.
-/

namespace VM

/-! ## Constants of `vm.h` -/

/-- Modelled from the spec: `NR_PTES_PER_PAGE` of the absent `vm.h`; the
directory fan-out is 16 (spec section 6), and `switch_process` iterates
`a < 16`, `b < 16`. -/
def NR_PTES_PER_PAGE : Nat := 16

/-- Modelled from the spec: `NR_TLB_ENTRIES` of the absent `vm.h`; line 41 of
`pa3.c` declares `tlb[1UL << (PTES_PER_PAGE_SHIFT * 2)]`, 256 entries. -/
def NR_TLB_ENTRIES : Nat := 256

/-- The number of page frames: the bound `128` of the scans in `alloc_page`
and `handle_page_fault`. -/
def NR_PAGEFRAMES : Nat := 128

/-- The value of `-1` returned as `unsigned int`. -/
def UINT_MINUS_ONE : Nat := 2 ^ 32 - 1

/-- Rights encoding of the absent `vm.h`: `ACCESS_READ`. -/
def ACCESS_READ : Nat := 1

/-- Rights encoding of the absent `vm.h`: `ACCESS_WRITE`. -/
def ACCESS_WRITE : Nat := 2

/-! ## Data model -/

/-- Modelled from the spec: `struct pte` of the absent `vm.h`, with the four
fields `pa3.c` reads and writes (`private` is spelled `priv`). -/
structure Pte where
  valid : Bool
  rw : Nat
  pfn : Nat
  priv : Nat
  deriving DecidableEq, Repr

/-- The all-zero PTE: what `free_page` stores and what fresh memory holds. -/
def Pte.zero : Pte := ⟨false, 0, 0, 0⟩

/-- The array `ptes[NR_PTES_PER_PAGE]` of a `struct pte_directory`. -/
abbrev PteDirectory := Nat → Pte

/-- A freshly allocated inner directory. -/
def PteDirectory.fresh : PteDirectory := fun _ => Pte.zero

/-- The array `outer_ptes[NR_PTES_PER_PAGE]` of a `struct pagetable`;
`none` is the `NULL` pointer. -/
structure PageTable where
  outer_ptes : Nat → Option PteDirectory

/-- A page table with every outer slot `NULL`. -/
def PageTable.empty : PageTable := ⟨fun _ => none⟩

/-- Modelled from the spec: `struct process` of the absent `vm.h`; the list
linkage is the position in `State.processes`. -/
structure Process where
  pid : Nat
  pagetable : PageTable

/-- Modelled from the spec: `struct tlb_entry` of the absent `vm.h`, with the
five fields `pa3.c` reads and writes. -/
structure TlbEntry where
  valid : Bool
  rw : Nat
  vpn : Nat
  pfn : Nat
  priv : Nat
  deriving DecidableEq, Repr

/-- The all-zero TLB entry. -/
def TlbEntry.zero : TlbEntry := ⟨false, 0, 0, 0, 0⟩

/-- The values of the pointer `ptbr` (a `struct pagetable *`). -/
inductive Ptbr where
  /-- The address `&current->pagetable`. -/
  | current
  /-- The address of a page table that is no process's; `table` is what that
  page table holds. -/
  | elsewhere (table : PageTable)

/-- The globals of `pa3.c` and the heap.  `processes` is the ready list from
its head to its tail.  `heap k` is the `pagetable.outer_ptes` array of the
block the `k`-th coming call of `malloc(sizeof(struct process))` returns, as
the heap holds it: `none` is a slot that happens to be `NULL`, `some g` a
non-NULL garbage pointer, `g` being what the memory behind it holds. -/
structure State where
  current : Process
  processes : List Process
  ptbr : Ptbr
  tlb : Nat → TlbEntry
  mapcounts : Nat → Nat
  heap : Nat → PageTable

/-- The page table `ptbr` points at (`*ptbr`). -/
def State.activeTable (s : State) : PageTable :=
  match s.ptbr with
  | Ptbr.current => s.current.pagetable
  | Ptbr.elsewhere table => table

/-- The state once the stores through `ptbr` have left `pt` in `*ptbr` and
line 211, `current->pagetable = *ptbr`, has copied it into the current
process (when `ptbr` points elsewhere the two tables then hold the same
directory pointers; the embedding keeps the value in both). -/
def State.storeActive (s : State) (pt : PageTable) : State :=
  { s with
    ptbr :=
      match s.ptbr with
      | Ptbr.current => Ptbr.current
      | Ptbr.elsewhere _ => Ptbr.elsewhere pt
    current := { s.current with pagetable := pt } }

/-! ## Helpers -/

/-- Array store `a[i] = v`. -/
def setAt {α : Type} (a : Nat → α) (i : Nat) (v : α) : Nat → α :=
  fun j => if j = i then v else a j

/-- The operator `++` on an `unsigned int`. -/
def inc32 (n : Nat) : Nat := (n + 1) % 2 ^ 32

/-- The operator `--` on an `unsigned int`. -/
def dec32 (n : Nat) : Nat := (n + (2 ^ 32 - 1)) % 2 ^ 32

/-- The index the loop `for (i = 0; i < n; i++) if (p i) { ...; break; }`
stops at, if any. -/
def firstIdx (n : Nat) (p : Nat → Bool) : Option Nat :=
  (List.range n).find? p

/-- The frame scan `for (i = 0; i < 128; i++) if (mapcounts[i] == 0)`. -/
def firstFreeFrame (mapcounts : Nat → Nat) : Option Nat :=
  firstIdx NR_PAGEFRAMES (fun i => mapcounts i == 0)

/-- The TLB scan `for (i = 0; i < NR_TLB_ENTRIES; i++) if (tlb[i].vpn == vpn)`. -/
def firstTlbFor (tlb : Nat → TlbEntry) (vpn : Nat) : Option Nat :=
  firstIdx NR_TLB_ENTRIES (fun i => (tlb i).vpn == vpn)

/-- The PTE of `vpn` in a page table: `outer_ptes[vpn / 16]->ptes[vpn % 16]`,
absent when the outer slot is `NULL`. -/
def PageTable.pte (pt : PageTable) (vpn : Nat) : Option Pte :=
  match pt.outer_ptes (vpn / NR_PTES_PER_PAGE) with
  | none => none
  | some d => some (d (vpn % NR_PTES_PER_PAGE))

/-- Store `outer_ptes[pd_index]->ptes[pte_index] = e` where the directory
`d` is the one the outer slot points at. -/
def PageTable.store (pt : PageTable) (pd_index pte_index : Nat) (d : PteDirectory)
    (e : Pte) : PageTable :=
  ⟨setAt pt.outer_ptes pd_index (some (setAt d pte_index e))⟩

/-! ## `alloc_page` (lines 172-214) -/

/-- The rights stores of lines 187-198: `rw` is written only when the request
is 1, 2 or 3. -/
def allocRights (e : Pte) (rw : Nat) : Pte :=
  if rw = 1 then { e with rw := ACCESS_READ }
  else if rw = 2 then { e with rw := ACCESS_WRITE }
  else if rw = 3 then { e with rw := 3 }
  else e

/-- `alloc_page(vpn, rw)`: the returned `unsigned int` and the new state. -/
def alloc_page (s : State) (vpn rw : Nat) : Nat × State :=
  let pd_index := vpn / NR_PTES_PER_PAGE
  let pte_index := vpn % NR_PTES_PER_PAGE
  if vpn ≥ 256 then (UINT_MINUS_ONE, s)
  else
    -- lines 182-185: allocate the inner directory on first use
    let d : PteDirectory := match s.activeTable.outer_ptes pd_index with
      | none => PteDirectory.fresh
      | some d => d
    -- lines 186-198
    let e := allocRights { d pte_index with valid := true } rw
    -- lines 199-207: the frame scan
    match firstFreeFrame s.mapcounts with
    | some i =>
      let e := { e with pfn := i, priv := 0 }
      (e.pfn,
        { s.storeActive (s.activeTable.store pd_index pte_index d e) with
          mapcounts := setAt s.mapcounts i (inc32 (s.mapcounts i)) })
    | none =>
      let e := { e with priv := 0 }
      (e.pfn, s.storeActive (s.activeTable.store pd_index pte_index d e))

/-! ## `lookup_tlb` (lines 66-123) and `insert_tlb` (lines 137-153) -/

/-- What a call of `lookup_tlb` does. -/
inductive LookupResult where
  /-- Returns `true` with `*pfn` set. -/
  | hit (pfn : Nat)
  /-- Returns `false`. -/
  | miss
  /-- Control leaves the loop and reaches the closing brace: no `return`. -/
  | fellOff
  /-- The store to `*pfn` reads through a `NULL` inner directory. -/
  | nullDeref
  deriving DecidableEq, Repr

/-- The statement `*pfn = ptbr->outer_ptes[pd_index]->ptes[pte_index].pfn;
return true;`. -/
def lookupHit (s : State) (vpn : Nat) : LookupResult :=
  match s.activeTable.pte vpn with
  | none => LookupResult.nullDeref
  | some e => LookupResult.hit e.pfn

/-- `lookup_tlb(vpn, rw, &pfn)`: every branch under `tlb[i].vpn == vpn`
returns, so only the first entry with that `vpn` field is examined. -/
def lookup_tlb (s : State) (vpn rw : Nat) : LookupResult :=
  match firstTlbFor s.tlb vpn with
  | none => LookupResult.fellOff
  | some i =>
    if (s.tlb i).valid = true then
      if (s.tlb i).rw = 1 then
        if rw = 1 then lookupHit s vpn else LookupResult.miss
      else if (s.tlb i).rw = 2 then
        if rw = 2 then lookupHit s vpn else LookupResult.miss
      else if (s.tlb i).rw = 3 then
        if rw = 1 ∨ rw = 2 ∨ rw = 3 then lookupHit s vpn else LookupResult.miss
      else LookupResult.miss
    else LookupResult.miss

/-- `insert_tlb(vpn, rw, pfn)`: the first slot with `valid == false` is
filled; when there is none nothing is stored. -/
def insert_tlb (s : State) (vpn rw pfn : Nat) : State :=
  match firstIdx NR_TLB_ENTRIES (fun i => (s.tlb i).valid == false) with
  | some i => { s with tlb := setAt s.tlb i ⟨true, rw, vpn, pfn, 0⟩ }
  | none => s

/-! ## `free_page` (lines 226-243) -/

/-- The loop of lines 230-237: each of its `NR_TLB_ENTRIES` rounds zeroes
the entry `tlb[pfn]`; the loop variable is not used. -/
def freeTlb (tlb : Nat → TlbEntry) (pfn : Nat) : Nat → TlbEntry :=
  (List.range NR_TLB_ENTRIES).foldl (fun t _ => setAt t pfn TlbEntry.zero) tlb

/-- `free_page(vpn)`; `none` when `current->pagetable.outer_ptes[pd_index]`
is `NULL` (the function dereferences it). -/
def free_page (s : State) (vpn : Nat) : Option State :=
  let pd_index := vpn / NR_PTES_PER_PAGE
  let pte_index := vpn % NR_PTES_PER_PAGE
  match s.current.pagetable.outer_ptes pd_index with
  | none => none
  | some d =>
    let pfn := (d pte_index).pfn
    some
      { s with
        tlb := freeTlb s.tlb pfn
        mapcounts := setAt s.mapcounts pfn (dec32 (s.mapcounts pfn))
        current :=
          { s.current with
            pagetable := s.current.pagetable.store pd_index pte_index d Pte.zero } }

/-! ## `handle_page_fault` (lines 262-330) -/

/-- What a call of a value-returning function does. -/
inductive Outcome (α : Type) where
  /-- A `return v;` was executed. -/
  | returned (v : α) (s : State)
  /-- Control reached the closing brace without a `return`. -/
  | fellOff (s : State)
  /-- A `NULL` inner-directory pointer was dereferenced. -/
  | nullDeref

/-- The loop of lines 289-298: the first entry whose `vpn` field is `vpn`
gets rights 3, the PTE's current frame and `private = 0`. -/
def tlbRepoint (tlb : Nat → TlbEntry) (vpn pfn : Nat) : Nat → TlbEntry :=
  match firstTlbFor tlb vpn with
  | some i => setAt tlb i { tlb i with rw := 3, pfn := pfn, priv := 0 }
  | none => tlb

/-- The loop of lines 313-321: the first entry whose `vpn` field is `vpn`
gets rights 3 and `private = 0`. -/
def tlbUpgrade (tlb : Nat → TlbEntry) (vpn : Nat) : Nat → TlbEntry :=
  match firstTlbFor tlb vpn with
  | some i => setAt tlb i { tlb i with rw := 3, priv := 0 }
  | none => tlb

/-- `handle_page_fault(vpn, rw)`. -/
def handle_page_fault (s : State) (vpn rw : Nat) : Outcome Bool :=
  let pd_index := vpn / NR_PTES_PER_PAGE
  let pte_index := vpn % NR_PTES_PER_PAGE
  match s.current.pagetable.outer_ptes pd_index with
  | none => Outcome.nullDeref
  | some d =>
    let tmp_pte := d pte_index
    if tmp_pte.priv = 1 then
      if s.mapcounts tmp_pte.pfn > 1 then
        -- lines 274-288: the frame scan runs only for a write request
        match (if rw = 2 then firstFreeFrame s.mapcounts else none) with
        | some i =>
          let e : Pte := { tmp_pte with pfn := i, rw := 3, priv := 0 }
          let mapcounts := setAt s.mapcounts i (inc32 (s.mapcounts i))
          -- lines 299-303: `suc == 1`
          Outcome.returned true
            { s with
              current :=
                { s.current with
                  pagetable := s.current.pagetable.store pd_index pte_index d e }
              tlb := tlbRepoint s.tlb vpn i
              mapcounts := setAt mapcounts tmp_pte.pfn (dec32 (mapcounts tmp_pte.pfn)) }
        | none =>
          -- `suc == 0`: the TLB loop of lines 289-298 has run, no `return` follows
          Outcome.fellOff { s with tlb := tlbRepoint s.tlb vpn tmp_pte.pfn }
      else
        if rw = 2 then
          let e : Pte := { tmp_pte with rw := 3, priv := 0 }
          Outcome.returned true
            { s with
              current :=
                { s.current with
                  pagetable := s.current.pagetable.store pd_index pte_index d e }
              tlb := tlbUpgrade s.tlb vpn }
        else Outcome.fellOff s
    else Outcome.returned false s

/-! ## `switch_process` (lines 351-444) -/

/-- The flush loops of lines 371-378 and 434-441. -/
def flushTlb (tlb : Nat → TlbEntry) : Nat → TlbEntry :=
  (List.range NR_TLB_ENTRIES).foldl (fun t i => setAt t i TlbEntry.zero) tlb

/-- The scan `list_for_each_entry_reverse(new, &processes, list)` with
`list_del_init` on the match: it walks from the tail towards the head and
stops at the first entry with the wanted `pid`; the result is that entry and
the list without it. -/
def pickFromTail (pid : Nat) : List Process → Option (Process × List Process)
  | [] => none
  | p :: ps =>
    match pickFromTail pid ps with
    | some (q, rest) => some (q, p :: rest)
    | none => if p.pid = pid then some (p, ps) else none

/-- The variables the fork loops update: the parent's page table
(`current->pagetable`), the child's (`new->pagetable`) and `mapcounts`; and
two ghost variables: `made a` says that line 390 has allocated the child's
directory `a`, `wild` that a store has gone through a pointer the loop read
from the uninitialised block. -/
structure ForkAcc where
  cur : PageTable
  new : PageTable
  mapcounts : Nat → Nat
  made : Nat → Bool
  wild : Bool

/-- The body of the inner loop (lines 386-417) for the slot `(a, b)`. -/
def forkPte (a b : Nat) (acc : ForkAcc) : ForkAcc :=
  match acc.cur.outer_ptes a with
  | none => acc
  | some cd =>
    if (cd b).valid = true then
      -- lines 388-391: the test reads the child's slot; a `NULL` slot gets a
      -- directory from `malloc`, any other pointer is used as it is
      let nd : PteDirectory := match acc.new.outer_ptes a with
        | none => PteDirectory.fresh
        | some d => d
      let made : Nat → Bool := match acc.new.outer_ptes a with
        | none => setAt acc.made a true
        | some _ => acc.made
      let wild : Bool := match acc.new.outer_ptes a with
        | none => acc.wild
        | some _ => acc.wild || !(acc.made a)
      -- line 392
      let n : Pte := { nd b with valid := true }
      if (cd b).rw = 1 then
        let n : Pte :=
          { n with pfn := (cd b).pfn, rw := 1, priv := if (cd b).priv = 1 then 1 else 0 }
        { acc with
          new := acc.new.store a b nd n
          mapcounts := setAt acc.mapcounts (cd b).pfn (inc32 (acc.mapcounts (cd b).pfn))
          made := made
          wild := wild }
      else if (cd b).rw = 3 then
        let c : Pte := { cd b with rw := 1, priv := 1 }
        let n : Pte := { n with rw := 1, priv := 1, pfn := c.pfn }
        { cur := acc.cur.store a b cd c
          new := acc.new.store a b nd n
          mapcounts := setAt acc.mapcounts c.pfn (inc32 (acc.mapcounts c.pfn))
          made := made
          wild := wild }
      else
        { acc with new := acc.new.store a b nd n, made := made, wild := wild }
    else acc

/-- The body of the outer loop (lines 382-423) for the outer slot `a`. -/
def forkDir (a : Nat) (acc : ForkAcc) : ForkAcc :=
  match acc.cur.outer_ptes a with
  | some _ => (List.range 16).foldl (fun acc b => forkPte a b acc) acc
  | none => { acc with new := ⟨setAt acc.new.outer_ptes a none⟩ }

/-- The loop nest of lines 380-424.  The child's page table starts as
`block`, the `outer_ptes` array of the block `malloc` returned at line 379,
which nothing has initialised. -/
def forkTables (cur block : PageTable) (mapcounts : Nat → Nat) : ForkAcc :=
  (List.range 16).foldl (fun acc a => forkDir a acc)
    ⟨cur, block, mapcounts, fun _ => false, false⟩

/-- Whether the call `switch_process(pid)` has undefined behaviour: it forks
and stores through a pointer it read from the uninitialised block of the
child (the run may fault at that store). -/
def switch_process_undefined (s : State) (pid : Nat) : Bool :=
  match pickFromTail pid (s.current :: s.processes) with
  | some _ => false
  | none => (forkTables s.current.pagetable (s.heap 0) s.mapcounts).wild

/-- `switch_process(pid)`.  When `switch_process_undefined` holds, the result
is the state the run reaches if its stores through the garbage pointer land
in the memory the heap gives for it. -/
def switch_process (s : State) (pid : Nat) : State :=
  -- line 357: `list_add` puts the current process at the head of the list
  match pickFromTail pid (s.current :: s.processes) with
  | some (q, rest) =>
    -- lines 362-366 (line 363 assigns `ptbr`), then the flush of lines 434-441
    { s with current := q, processes := rest, ptbr := Ptbr.current, tlb := flushTlb s.tlb }
  | none =>
    -- line 379 takes the next block of the heap and leaves it uninitialised
    let acc := forkTables s.current.pagetable (s.heap 0) s.mapcounts
    { current := { pid := pid, pagetable := acc.new }
      processes := { s.current with pagetable := acc.cur } :: s.processes
      -- line 429
      ptbr := Ptbr.current
      tlb := flushTlb s.tlb
      mapcounts := acc.mapcounts
      heap := fun k => s.heap (k + 1) }

/-! ## Reference counting -/

/-- Whether the PTE of `vpn` in `pt` is valid and names frame `f`. -/
def PageTable.maps (pt : PageTable) (vpn f : Nat) : Bool :=
  match pt.pte vpn with
  | some e => e.valid && e.pfn == f
  | none => false

/-- The number of valid PTEs of `pt` (over the 256 virtual pages) that name
frame `f`. -/
def PageTable.refs (pt : PageTable) (f : Nat) : Nat :=
  ((List.range 256).filter (fun vpn => pt.maps vpn f)).length

/-- The number of valid PTEs naming frame `f`, summed over the current
process and the processes of the ready list. -/
def State.refs (s : State) (f : Nat) : Nat :=
  ((s.current :: s.processes).map (fun p => p.pagetable.refs f)).sum

/-- Reference-count conservation: every frame's map count is the number of
valid PTEs naming it. -/
def RefcountOK (s : State) : Prop :=
  ∀ f, f < NR_PAGEFRAMES → s.mapcounts f = s.refs f

instance (s : State) : Decidable (RefcountOK s) := by
  unfold RefcountOK; infer_instance

/-! ## Concrete states -/

/-- The state at start-up: process 0 with an empty page table, an empty ready
list, `ptbr` at the current process's page table, an empty TLB, every frame
free and a heap whose blocks are all zero. -/
def State.boot : State :=
  ⟨⟨0, PageTable.empty⟩, [], Ptbr.current, fun _ => TlbEntry.zero, fun _ => 0,
    fun _ => PageTable.empty⟩

/-- The state `State.onePage` (below) with a heap that is not zero: slot 0 of
the `outer_ptes` array of the next `struct process` block is a non-NULL
garbage pointer; the memory behind it reads as PTEs `{true, 2, 77, 5}`. -/
def State.dirtyHeap : State :=
  { (alloc_page State.boot 0 3).2 with
    heap := fun _ =>
      ⟨fun a => if a = 0 then some (fun _ => ⟨true, 2, 77, 5⟩) else none⟩ }

/-- Process 0 after `alloc_page(0, 3)`: page 0 is read-write in frame 0. -/
def State.onePage : State := (alloc_page State.boot 0 3).2

/-- Process 0 after `alloc_page(0, 1)` and `alloc_page(1, 2)`: page 0 is
read-only in frame 0, page 1 is write-only in frame 1. -/
def State.writeOnly : State := (alloc_page (alloc_page State.boot 0 1).2 1 2).2

/-- Process 0 holds page 0 read-write in frame 0 and has forked process 1,
which is now current: both PTEs are read-only and marked COW, frame 0 is
mapped twice. -/
def State.forked : State := switch_process State.onePage 1

/-- Process 1 of `State.forked` has taken its private copy of page 0; process
0 is current again and is the only user of frame 0, its PTE still marked
COW. -/
def State.soleOwner : State :=
  match handle_page_fault State.forked 0 2 with
  | Outcome.returned _ s => switch_process s 0
  | Outcome.fellOff s => s
  | Outcome.nullDeref => State.forked

/-- Process 0 maps pages 0 and 1 (read-only) to frames 0 and 1; the
translation of page 1 was cached first, so it sits in TLB slot 0. -/
def State.cached : State :=
  insert_tlb (alloc_page (alloc_page State.boot 0 1).2 1 1).2 1 1 1

/-- The page table of `State.full`: page `v` in frame `v` for `v < 128`
except page 5, whose PTE is zero (freed), and page 200 in frame 5. -/
def fullTable : PageTable :=
  ⟨fun a =>
    if a < 8 then
      some (fun b => if 16 * a + b = 5 then Pte.zero else ⟨true, 1, 16 * a + b, 0⟩)
    else if a = 12 then some (fun b => if b = 8 then ⟨true, 1, 5, 0⟩ else Pte.zero)
    else none⟩

/-- A state with no free frame, reached from `State.boot` by `alloc_page(v, 1)`
for `v = 0 .. 127`, `free_page(5)` and `alloc_page(200, 1)`: each of the 128
frames is mapped once. -/
def State.full : State :=
  ⟨⟨0, fullTable⟩, [], Ptbr.current, fun _ => TlbEntry.zero,
    fun f => if f < 128 then 1 else 0, fun _ => PageTable.empty⟩

/-- The page table of both processes of `State.fullForked`: page `v` in frame
`v` for `v < 128`, every PTE read-only, page 0 marked COW. -/
def sharedTable : PageTable :=
  ⟨fun a =>
    if a < 8 then
      some (fun b => ⟨true, 1, 16 * a + b, if 16 * a + b = 0 then 1 else 0⟩)
    else none⟩

/-- A state with a shared COW page and no free frame.  Process 0 has called
`alloc_page(0, 3)` and `alloc_page(v, 1)` for `v = 1 .. 127` and has forked
process 1, which is current; every frame is mapped by both.  Process 1 has
read page 0, so TLB slot 0 caches it with rights 1. -/
def State.fullForked : State :=
  ⟨⟨1, sharedTable⟩, [⟨0, sharedTable⟩], Ptbr.current,
    fun i => if i = 0 then ⟨true, 1, 0, 0, 0⟩ else TlbEntry.zero,
    fun f => if f < 128 then 2 else 0, fun _ => PageTable.empty⟩

/-- The state `State.cached` after `free_page(1)`: TLB slot 0 still caches
page 1 with `pfn` field 1, while the PTE of page 1 is all zero. -/
def State.stale : State :=
  match free_page State.cached 1 with
  | some s => s
  | none => State.cached

/-- The state `State.cached` after `insert_tlb(0, 1, 0)` and `free_page(0)`:
TLB slot 0 (indexed by the freed frame 0) is all zero, TLB slot 1 is the
valid entry of page 0. -/
def State.shadowed : State :=
  match free_page (insert_tlb State.cached 0 1 0) 0 with
  | some s => s
  | none => State.cached

/-! ## Closed forms used to describe the fork loops -/

/-- What the fork loop leaves in the parent's slot that held `e`. -/
def forkParentPte (e : Pte) : Pte :=
  if e.valid = true ∧ e.rw = 3 then { e with rw := 1, priv := 1 } else e

/-- What the fork loop leaves in the child's slot when the parent's slot held
the valid PTE `e`; with rights other than 1 and 3 only `valid` is stored. -/
def forkChildPte (e : Pte) : Pte :=
  if e.rw = 1 then ⟨true, 1, e.pfn, if e.priv = 1 then 1 else 0⟩
  else if e.rw = 3 then ⟨true, 1, e.pfn, 1⟩
  else ⟨true, 0, 0, 0⟩

/-- The state of the tables after the inner loop has handled the slots
`b < n` of outer slot `a`, started from `acc0` where the parent's directory
was `cd0`. -/
def ForkDirInv (a n : Nat) (acc0 acc : ForkAcc) (cd0 : PteDirectory) : Prop :=
  (∃ cd, acc.cur.outer_ptes a = some cd ∧
      ∀ b, cd b = if b < n then forkParentPte (cd0 b) else cd0 b) ∧
  (∀ a', a' ≠ a → acc.cur.outer_ptes a' = acc0.cur.outer_ptes a') ∧
  (∀ a', a' ≠ a → acc.new.outer_ptes a' = acc0.new.outer_ptes a') ∧
  ((acc.new.outer_ptes a = none ∧ ∀ b, b < n → (cd0 b).valid = false) ∨
    (∃ nd, acc.new.outer_ptes a = some nd ∧
      ∀ b, nd b = if b < n then
        (if (cd0 b).valid = true then forkChildPte (cd0 b) else Pte.zero) else Pte.zero))

/-- The relation between the parent's original outer slot `o` and the
parent's and child's outer slots `c`, `n` once the fork loop has handled it. -/
def ForkSlotDone (o c n : Option PteDirectory) : Prop :=
  match o with
  | none => c = none ∧ n = none
  | some cd0 =>
    (∃ cd, c = some cd ∧ ∀ b, b < 16 → cd b = forkParentPte (cd0 b)) ∧
    ((n = none ∧ ∀ b, b < 16 → (cd0 b).valid = false) ∨
      (∃ nd, n = some nd ∧
        ∀ b, b < 16 → nd b = if (cd0 b).valid = true then forkChildPte (cd0 b) else Pte.zero))

/-! ## Basic facts about the helpers -/

theorem setAt_same {α : Type} (a : Nat → α) (i : Nat) (v : α) : setAt a i v i = v := by
  simp [setAt]

theorem setAt_ne {α : Type} (a : Nat → α) (i j : Nat) (v : α) (h : j ≠ i) :
    setAt a i v j = a j := by
  simp [setAt, h]

theorem firstIdx_succ (n : Nat) (p : Nat → Bool) :
    firstIdx (n + 1) p =
      match firstIdx n p with
      | some i => some i
      | none => if p n then some n else none := by
  unfold firstIdx
  rw [List.range_succ, List.find?_append]
  cases h : List.find? p (List.range n) <;> cases hp : p n <;> simp [List.find?, hp]

theorem firstIdx_some {n : Nat} {p : Nat → Bool} {i : Nat} (h : firstIdx n p = some i) :
    i < n ∧ p i = true ∧ ∀ j, j < i → p j = false := by
  induction n with
  | zero => simp [firstIdx] at h
  | succ n ih =>
    rw [firstIdx_succ] at h
    cases hn : firstIdx n p with
    | some k =>
      rw [hn] at h
      cases h
      obtain ⟨h1, h2, h3⟩ := ih hn
      exact ⟨Nat.lt_succ_of_lt h1, h2, h3⟩
    | none =>
      rw [hn] at h
      by_cases hp : p n = true
      · simp [hp] at h
        subst h
        refine ⟨Nat.lt_succ_self _, hp, ?_⟩
        intro j hj
        have hnone : (List.range n).find? p = none := hn
        rw [List.find?_eq_none] at hnone
        simpa using hnone j (List.mem_range.mpr hj)
      · simp [hp] at h

theorem firstIdx_none {n : Nat} {p : Nat → Bool} :
    firstIdx n p = none ↔ ∀ j, j < n → p j = false := by
  unfold firstIdx
  rw [List.find?_eq_none]
  constructor
  · intro h j hj
    simpa using h j (List.mem_range.mpr hj)
  · intro h j hj
    simpa using h j (List.mem_range.mp hj)

theorem firstIdx_exists {n : Nat} {p : Nat → Bool} (h : ∃ j, j < n ∧ p j = true) :
    ∃ i, firstIdx n p = some i := by
  cases hf : firstIdx n p with
  | some i => exact ⟨i, rfl⟩
  | none =>
    obtain ⟨j, hj, hp⟩ := h
    have := firstIdx_none.mp hf j hj
    rw [hp] at this
    cases this

theorem firstFreeFrame_some {m : Nat → Nat} {i : Nat} (h : firstFreeFrame m = some i) :
    i < NR_PAGEFRAMES ∧ m i = 0 ∧ ∀ j, j < i → m j ≠ 0 := by
  obtain ⟨h1, h2, h3⟩ := firstIdx_some h
  refine ⟨h1, by simpa using h2, ?_⟩
  intro j hj
  simpa using h3 j hj

theorem firstFreeFrame_exists {m : Nat → Nat} (h : ∃ i, i < NR_PAGEFRAMES ∧ m i = 0) :
    ∃ i, firstFreeFrame m = some i := by
  obtain ⟨j, hj, hz⟩ := h
  exact firstIdx_exists ⟨j, hj, by simp [hz]⟩

theorem firstFreeFrame_none {m : Nat → Nat} :
    firstFreeFrame m = none ↔ ∀ j, j < NR_PAGEFRAMES → m j ≠ 0 := by
  unfold firstFreeFrame
  rw [firstIdx_none]
  constructor
  · intro h j hj
    simpa using h j hj
  · intro h j hj
    simpa using h j hj

theorem store_pte_same (pt : PageTable) (vpn : Nat) (d : PteDirectory) (e : Pte) :
    (pt.store (vpn / NR_PTES_PER_PAGE) (vpn % NR_PTES_PER_PAGE) d e).pte vpn = some e := by
  simp [PageTable.store, PageTable.pte, setAt]

theorem vpn_split {v w : Nat} (h1 : v / NR_PTES_PER_PAGE = w / NR_PTES_PER_PAGE)
    (h2 : v % NR_PTES_PER_PAGE = w % NR_PTES_PER_PAGE) : v = w := by
  have a := Nat.div_add_mod v NR_PTES_PER_PAGE
  have b := Nat.div_add_mod w NR_PTES_PER_PAGE
  rw [h1, h2] at a
  omega

theorem store_pte_other (pt : PageTable) (vpn w : Nat) (d : PteDirectory) (e : Pte)
    (hd : pt.outer_ptes (vpn / NR_PTES_PER_PAGE) = some d) (hw : w ≠ vpn) :
    (pt.store (vpn / NR_PTES_PER_PAGE) (vpn % NR_PTES_PER_PAGE) d e).pte w = pt.pte w := by
  unfold PageTable.store PageTable.pte
  by_cases h1 : w / NR_PTES_PER_PAGE = vpn / NR_PTES_PER_PAGE
  · have h2 : w % NR_PTES_PER_PAGE ≠ vpn % NR_PTES_PER_PAGE := fun h2 => hw (vpn_split h1 h2)
    simp [setAt, h1, h2, hd]
  · simp [setAt, h1]

theorem storeActive_activeTable (s : State) (pt : PageTable) :
    (s.storeActive pt).activeTable = pt := by
  cases h : s.ptbr <;> simp [State.storeActive, State.activeTable, h]

/-! ## `alloc_page` -/

/-- C1. When some frame below 128 has map count 0, `vpn < 256` and `rw` is 1, 2
or 3, `alloc_page` returns the smallest frame `f` whose map count was 0;
afterwards the PTE of `vpn` in the active page table is
`{valid = true, rw, pfn = f, private = 0}`, the map count of `f` is 1 and
every other map count is unchanged. -/
theorem alloc_page_lowest_free (s : State) (vpn rw : Nat)
    (hfree : ∃ i, i < NR_PAGEFRAMES ∧ s.mapcounts i = 0) (hvpn : vpn < 256)
    (hrw : rw = 1 ∨ rw = 2 ∨ rw = 3) :
    ∃ f, (alloc_page s vpn rw).1 = f ∧ f < NR_PAGEFRAMES ∧ s.mapcounts f = 0 ∧
      (∀ j, j < f → s.mapcounts j ≠ 0) ∧
      (alloc_page s vpn rw).2.activeTable.pte vpn = some ⟨true, rw, f, 0⟩ ∧
      (alloc_page s vpn rw).2.mapcounts f = 1 ∧
      ∀ g, g ≠ f → (alloc_page s vpn rw).2.mapcounts g = s.mapcounts g := by
  obtain ⟨f, hf⟩ := firstFreeFrame_exists hfree
  obtain ⟨h1, h2, h3⟩ := firstFreeFrame_some hf
  have hge : ¬ vpn ≥ 256 := by omega
  refine ⟨f, ?_, h1, h2, h3, ?_, ?_, ?_⟩
  · simp [alloc_page, hge, hf]
  · simp only [alloc_page, hge, hf, if_false]
    show (s.storeActive _).activeTable.pte vpn = _
    rw [storeActive_activeTable, store_pte_same]
    rcases hrw with h | h | h <;> subst h <;> simp [allocRights, ACCESS_READ, ACCESS_WRITE]
  · simp [alloc_page, hge, hf, setAt, h2, inc32]
  · intro g hg
    simp [alloc_page, hge, hf, setAt, hg]

/-! ## The fork loops -/

theorem setAt_extend {α : Type} (d : Nat → α) (P Q : Nat → α) (n : Nat) (c : α)
    (h : ∀ b, d b = if b < n then P b else Q b) (hc : c = P n) :
    ∀ b, setAt d n c b = if b < n + 1 then P b else Q b := by
  intro b
  by_cases hbn : b = n
  · subst hbn; simp [setAt, hc]
  · have e : (b < n + 1) = (b < n) := by
      apply propext; omega
    simp only [setAt, hbn, if_false, e]
    exact h b

theorem keep_extend {α : Type} (d : Nat → α) (P Q : Nat → α) (n : Nat)
    (h : ∀ b, d b = if b < n then P b else Q b) (hc : Q n = P n) :
    ∀ b, d b = if b < n + 1 then P b else Q b := by
  intro b
  by_cases hbn : b = n
  · subst hbn
    rw [h b]; simp [hc]
  · have e : (b < n + 1) = (b < n) := by
      apply propext; omega
    simp only [e]
    exact h b

theorem forkPte_step (a n : Nat) (acc0 acc : ForkAcc) (cd0 : PteDirectory)
    (h : ForkDirInv a n acc0 acc cd0) : ForkDirInv a (n + 1) acc0 (forkPte a n acc) cd0 := by
  obtain ⟨⟨cd, hcd, hcdv⟩, hc, hn, hnew⟩ := h
  have hcn : cd n = cd0 n := by rw [hcdv n]; simp
  -- the child's directory before this round, and what it holds
  obtain ⟨nd, hnd, hndv⟩ : ∃ nd : PteDirectory,
      (match acc.new.outer_ptes a with
        | none => PteDirectory.fresh
        | some d => d) = nd ∧
      ∀ b, nd b = if b < n then
        (if (cd0 b).valid = true then forkChildPte (cd0 b) else Pte.zero) else Pte.zero := by
    rcases hnew with ⟨h1, h2⟩ | ⟨nd, h1, h2⟩
    · refine ⟨PteDirectory.fresh, by rw [h1], ?_⟩
      intro b
      by_cases hb : b < n
      · simp [hb, h2 b hb, PteDirectory.fresh]
      · simp [hb, PteDirectory.fresh]
    · exact ⟨nd, by rw [h1], h2⟩
  have hndn : nd n = Pte.zero := by rw [hndv n]; simp
  unfold forkPte
  rw [hcd]
  simp only [hcn, hnd]
  by_cases hv : (cd0 n).valid = true
  · simp only [hv, if_true]
    have hchild : ∀ b, setAt nd n (forkChildPte (cd0 n)) b = if b < n + 1 then
        (if (cd0 b).valid = true then forkChildPte (cd0 b) else Pte.zero) else Pte.zero :=
      setAt_extend nd _ _ n _ hndv (by simp [hv])
    by_cases h1 : (cd0 n).rw = 1
    · simp only [h1, if_true]
      refine ⟨⟨cd, hcd, ?_⟩, hc, ?_, Or.inr ⟨setAt nd n (forkChildPte (cd0 n)), ?_, hchild⟩⟩
      · exact keep_extend cd _ _ n hcdv (by simp [forkParentPte, h1])
      · intro a' ha'; simp [PageTable.store, setAt, ha', hn a' ha']
      · simp [PageTable.store, setAt, forkChildPte, h1]
    · by_cases h3 : (cd0 n).rw = 3
      · simp only [h3, if_true]
        refine ⟨⟨setAt cd n (forkParentPte (cd0 n)), ?_, ?_⟩, ?_, ?_,
          Or.inr ⟨setAt nd n (forkChildPte (cd0 n)), ?_, hchild⟩⟩
        · simp [PageTable.store, setAt, forkParentPte, hv, h3, hcn]
        · exact setAt_extend cd _ _ n _ hcdv rfl
        · intro a' ha'; simp [PageTable.store, setAt, ha', hc a' ha']
        · intro a' ha'; simp [PageTable.store, setAt, ha', hn a' ha']
        · simp [PageTable.store, setAt, forkChildPte, h3]
      · simp only [h1, h3, if_false]
        refine ⟨⟨cd, hcd, ?_⟩, hc, ?_, Or.inr ⟨setAt nd n (forkChildPte (cd0 n)), ?_, hchild⟩⟩
        · exact keep_extend cd _ _ n hcdv (by simp [forkParentPte, h3])
        · intro a' ha'; simp [PageTable.store, setAt, ha', hn a' ha']
        · simp [PageTable.store, setAt, forkChildPte, h1, h3, hndn, Pte.zero]
  · simp only [hv]
    refine ⟨⟨cd, hcd, ?_⟩, hc, hn, ?_⟩
    · exact keep_extend cd _ _ n hcdv (by simp [forkParentPte, hv])
    · rcases hnew with ⟨h1, h2⟩ | ⟨nd2, h1, h2⟩
      · left
        refine ⟨h1, ?_⟩
        intro b hb
        by_cases hbn : b = n
        · subst hbn; simpa using hv
        · exact h2 b (by omega)
      · right
        exact ⟨nd2, h1, keep_extend nd2 _ _ n h2 (by simp [hv])⟩

theorem forkDir_inner (a n : Nat) (acc0 : ForkAcc) (cd0 : PteDirectory)
    (h0 : acc0.cur.outer_ptes a = some cd0) (hn0 : acc0.new.outer_ptes a = none) :
    ForkDirInv a n acc0 ((List.range n).foldl (fun acc b => forkPte a b acc) acc0) cd0 := by
  induction n with
  | zero =>
    refine ⟨⟨cd0, by simpa using h0, by simp⟩, by simp, by simp, Or.inl ⟨by simpa using hn0, by simp⟩⟩
  | succ n ih =>
    rw [List.range_succ, List.foldl_append]
    exact forkPte_step a n acc0 _ cd0 ih

theorem forkDir_slot (cur0 : PageTable) (m : Nat) (acc : ForkAcc)
    (h : ∀ a, (a < m → ForkSlotDone (cur0.outer_ptes a) (acc.cur.outer_ptes a)
          (acc.new.outer_ptes a)) ∧
        (¬ a < m → acc.cur.outer_ptes a = cur0.outer_ptes a ∧ acc.new.outer_ptes a = none)) :
    ∀ a, (a < m + 1 → ForkSlotDone (cur0.outer_ptes a) ((forkDir m acc).cur.outer_ptes a)
          ((forkDir m acc).new.outer_ptes a)) ∧
        (¬ a < m + 1 → (forkDir m acc).cur.outer_ptes a = cur0.outer_ptes a ∧
          (forkDir m acc).new.outer_ptes a = none) := by
  have hm := (h m).2 (Nat.lt_irrefl m)
  cases hc : acc.cur.outer_ptes m with
  | none =>
    have hf : forkDir m acc = { acc with new := ⟨setAt acc.new.outer_ptes m none⟩ } := by
      simp [forkDir, hc]
    rw [hf]
    intro a
    by_cases ham : a = m
    · subst ham
      refine ⟨fun _ => ?_, fun hlt => absurd (Nat.lt_succ_self a) hlt⟩
      rw [← hm.1, hc]
      simp [ForkSlotDone, hc, setAt]
    · have e : (a < m + 1) = (a < m) := by apply propext; omega
      simp only [e, setAt, ham, if_false]
      exact h a
  | some cd0 =>
    have hf : forkDir m acc = (List.range 16).foldl (fun acc b => forkPte m b acc) acc := by
      simp [forkDir, hc]
    rw [hf]
    obtain ⟨⟨cd, hcd, hcdv⟩, hcur, hnew, hch⟩ := forkDir_inner m 16 acc cd0 hc hm.2
    intro a
    by_cases ham : a = m
    · subst ham
      refine ⟨fun _ => ?_, fun hlt => absurd (Nat.lt_succ_self a) hlt⟩
      rw [← hm.1, hc]
      refine ⟨⟨cd, hcd, ?_⟩, ?_⟩
      · intro b hb
        rw [hcdv b]; simp [hb]
      · rcases hch with ⟨h1, h2⟩ | ⟨nd, h1, h2⟩
        · exact Or.inl ⟨h1, h2⟩
        · refine Or.inr ⟨nd, h1, ?_⟩
          intro b hb
          rw [h2 b]; simp [hb]
    · have e : (a < m + 1) = (a < m) := by apply propext; omega
      simp only [e]
      rw [hcur a ham, hnew a ham]
      exact h a

theorem forkTables_inv (cur0 block : PageTable) (mc : Nat → Nat)
    (hblk : ∀ a, block.outer_ptes a = none) (m : Nat) :
    ∀ a, (a < m → ForkSlotDone (cur0.outer_ptes a)
          (((List.range m).foldl (fun acc a => forkDir a acc)
            ⟨cur0, block, mc, fun _ => false, false⟩).cur.outer_ptes a)
          (((List.range m).foldl (fun acc a => forkDir a acc)
            ⟨cur0, block, mc, fun _ => false, false⟩).new.outer_ptes a)) ∧
        (¬ a < m → ((List.range m).foldl (fun acc a => forkDir a acc)
            ⟨cur0, block, mc, fun _ => false, false⟩).cur.outer_ptes a = cur0.outer_ptes a ∧
          ((List.range m).foldl (fun acc a => forkDir a acc)
            ⟨cur0, block, mc, fun _ => false, false⟩).new.outer_ptes a = none) := by
  induction m with
  | zero =>
    intro a
    simp [hblk a]
  | succ m ih =>
    rw [List.range_succ, List.foldl_append]
    exact forkDir_slot cur0 m _ ih

theorem forkTables_slot (cur0 block : PageTable) (mc : Nat → Nat)
    (hblk : ∀ a, block.outer_ptes a = none) (a : Nat) (ha : a < 16) :
    ForkSlotDone (cur0.outer_ptes a) ((forkTables cur0 block mc).cur.outer_ptes a)
      ((forkTables cur0 block mc).new.outer_ptes a) :=
  (forkTables_inv cur0 block mc hblk 16 a).1 ha

theorem forkTables_parent_pte (cur0 block : PageTable) (mc : Nat → Nat)
    (hblk : ∀ a, block.outer_ptes a = none) (vpn : Nat) (e : Pte)
    (hvpn : vpn < 256) (he : cur0.pte vpn = some e) :
    (forkTables cur0 block mc).cur.pte vpn = some (forkParentPte e) := by
  have ha : vpn / NR_PTES_PER_PAGE < 16 := by
    simp only [NR_PTES_PER_PAGE]; omega
  have hb : vpn % NR_PTES_PER_PAGE < 16 := Nat.mod_lt _ (by decide)
  have hs := forkTables_slot cur0 block mc hblk _ ha
  unfold PageTable.pte at he ⊢
  cases ho : cur0.outer_ptes (vpn / NR_PTES_PER_PAGE) with
  | none => rw [ho] at he; cases he
  | some cd0 =>
    rw [ho] at he hs
    obtain ⟨⟨cd, hcd, hcdv⟩, _⟩ := hs
    rw [hcd]
    simp only [Option.some.injEq] at he ⊢
    rw [hcdv _ hb, he]

theorem forkTables_child_pte (cur0 block : PageTable) (mc : Nat → Nat)
    (hblk : ∀ a, block.outer_ptes a = none) (vpn : Nat) (e : Pte)
    (hvpn : vpn < 256) (he : cur0.pte vpn = some e) (hv : e.valid = true) :
    (forkTables cur0 block mc).new.pte vpn = some (forkChildPte e) := by
  have ha : vpn / NR_PTES_PER_PAGE < 16 := by
    simp only [NR_PTES_PER_PAGE]; omega
  have hb : vpn % NR_PTES_PER_PAGE < 16 := Nat.mod_lt _ (by decide)
  have hs := forkTables_slot cur0 block mc hblk _ ha
  unfold PageTable.pte at he ⊢
  cases ho : cur0.outer_ptes (vpn / NR_PTES_PER_PAGE) with
  | none => rw [ho] at he; cases he
  | some cd0 =>
    rw [ho] at he hs
    simp only [Option.some.injEq] at he
    obtain ⟨_, ⟨_, h2⟩ | ⟨nd, hnd, hndv⟩⟩ := hs
    · have := h2 _ hb
      rw [he, hv] at this
      cases this
    · rw [hnd]
      simp only [Option.some.injEq]
      rw [hndv _ hb, he]
      simp [hv]

/-! ## `handle_page_fault` -/

theorem dec32_of_pos {n : Nat} (h0 : 0 < n) (h1 : n < 2 ^ 32) : dec32 n + 1 = n := by
  unfold dec32
  have e : n + (2 ^ 32 - 1) = (n - 1) + 2 ^ 32 := by omega
  rw [e, Nat.add_mod_right, Nat.mod_eq_of_lt (by omega)]
  omega

theorem pte_outer {pt : PageTable} {vpn : Nat} {e : Pte} (h : pt.pte vpn = some e) :
    ∃ d, pt.outer_ptes (vpn / NR_PTES_PER_PAGE) = some d ∧ d (vpn % NR_PTES_PER_PAGE) = e := by
  unfold PageTable.pte at h
  cases hd : pt.outer_ptes (vpn / NR_PTES_PER_PAGE) with
  | none => rw [hd] at h; cases h
  | some d =>
    rw [hd] at h
    exact ⟨d, rfl, by simpa using h⟩

/-- C5. When the current process's PTE of `vpn` is marked COW, its frame `o`
has map count above 1 and some frame is free, `handle_page_fault(vpn, 2)`
returns `true`; the PTE then names the smallest free frame `g` with rights 3
and the COW mark cleared, the map count of `g` is 1, that of `o` is one less,
every other map count is unchanged, and the ready list (every other process
and its page table) is unchanged. -/
theorem handle_page_fault_cow_shared (s : State) (vpn : Nat) (e : Pte)
    (he : s.current.pagetable.pte vpn = some e) (hcow : e.priv = 1)
    (hshared : 1 < s.mapcounts e.pfn)
    (hfree : ∃ i, i < NR_PAGEFRAMES ∧ s.mapcounts i = 0) :
    ∃ g s', handle_page_fault s vpn 2 = Outcome.returned true s' ∧
      g < NR_PAGEFRAMES ∧ s.mapcounts g = 0 ∧ (∀ j, j < g → s.mapcounts j ≠ 0) ∧
      s'.current.pagetable.pte vpn = some ⟨e.valid, 3, g, 0⟩ ∧
      s'.mapcounts g = 1 ∧
      s'.mapcounts e.pfn = dec32 (s.mapcounts e.pfn) ∧
      (s.mapcounts e.pfn < 2 ^ 32 → s'.mapcounts e.pfn + 1 = s.mapcounts e.pfn) ∧
      (∀ f, f ≠ g → f ≠ e.pfn → s'.mapcounts f = s.mapcounts f) ∧
      s'.processes = s.processes ∧ s'.current.pid = s.current.pid := by
  obtain ⟨d, hd, hde⟩ := pte_outer he
  obtain ⟨g, hg⟩ := firstFreeFrame_exists hfree
  obtain ⟨h1, h2, h3⟩ := firstFreeFrame_some hg
  have hne : e.pfn ≠ g := by
    intro h; rw [h, h2] at hshared; omega
  have hm : setAt (setAt s.mapcounts g (inc32 (s.mapcounts g))) e.pfn
      (dec32 (setAt s.mapcounts g (inc32 (s.mapcounts g)) e.pfn)) e.pfn
      = dec32 (s.mapcounts e.pfn) := by
    simp [setAt, hne]
  have hres : handle_page_fault s vpn 2 = Outcome.returned true
      { s with
        current :=
          { s.current with
            pagetable := s.current.pagetable.store (vpn / NR_PTES_PER_PAGE)
              (vpn % NR_PTES_PER_PAGE) d ⟨e.valid, 3, g, 0⟩ }
        tlb := tlbRepoint s.tlb vpn g
        mapcounts := setAt (setAt s.mapcounts g (inc32 (s.mapcounts g))) e.pfn
          (dec32 (setAt s.mapcounts g (inc32 (s.mapcounts g)) e.pfn)) } := by
    simp only [handle_page_fault, hd, hde, hcow, hshared, hg, if_true]
  refine ⟨g, _, hres, h1, h2, h3, ?_, ?_, ?_, ?_, ?_, ?_, ?_⟩
  · simp only [store_pte_same]
  · simp [setAt, hne.symm, h2, inc32]
  · exact hm
  · intro hlt
    simp only [hm]
    exact dec32_of_pos (by omega) hlt
  · intro f hf1 hf2
    simp [setAt, hf1, hf2]
  · rfl
  · rfl

/-- C6. When the current process's PTE of `vpn` is marked COW and its frame
has map count exactly 1, `handle_page_fault(vpn, 2)` returns `true`; the PTE
keeps its frame, gets rights 3 and loses the COW mark, no map count changes,
and the first TLB entry whose `vpn` field is `vpn`, if there is one, gets
rights 3. -/
theorem handle_page_fault_cow_sole (s : State) (vpn : Nat) (e : Pte)
    (he : s.current.pagetable.pte vpn = some e) (hcow : e.priv = 1)
    (hone : s.mapcounts e.pfn = 1) :
    ∃ s', handle_page_fault s vpn 2 = Outcome.returned true s' ∧
      s'.current.pagetable.pte vpn = some ⟨e.valid, 3, e.pfn, 0⟩ ∧
      s'.mapcounts = s.mapcounts ∧
      (∀ i, i < NR_TLB_ENTRIES → (s.tlb i).vpn = vpn →
        (∀ j, j < i → (s.tlb j).vpn ≠ vpn) → (s'.tlb i).rw = 3) := by
  obtain ⟨d, hd, hde⟩ := pte_outer he
  have hns : ¬ s.mapcounts e.pfn > 1 := by omega
  have hres : handle_page_fault s vpn 2 = Outcome.returned true
      { s with
        current :=
          { s.current with
            pagetable := s.current.pagetable.store (vpn / NR_PTES_PER_PAGE)
              (vpn % NR_PTES_PER_PAGE) d ⟨e.valid, 3, e.pfn, 0⟩ }
        tlb := tlbUpgrade s.tlb vpn } := by
    simp only [handle_page_fault, hd, hde, hcow, hns, if_true, if_false]
  refine ⟨_, hres, ?_, ?_, ?_⟩
  · simp only [store_pte_same]
  · rfl
  · intro i hi hv hfirst
    have hf : firstTlbFor s.tlb vpn = some i := by
      obtain ⟨k, hk⟩ := firstIdx_exists
        (p := fun i => (s.tlb i).vpn == vpn) ⟨i, hi, by simpa using hv⟩
      obtain ⟨k1, k2, k3⟩ := firstIdx_some hk
      have hki : k = i := by
        rcases Nat.lt_trichotomy k i with h | h | h
        · exact absurd (by simpa using k2) (hfirst k h)
        · exact h
        · have := k3 i h
          simp [hv] at this
      rw [← hki]; exact hk
    simp [tlbUpgrade, hf, setAt]

/-! ## `free_page` -/

theorem freeTlb_eq (tlb : Nat → TlbEntry) (pfn : Nat) :
    freeTlb tlb pfn = setAt tlb pfn TlbEntry.zero := by
  have h : ∀ n : Nat, (List.range (n + 1)).foldl (fun t _ => setAt t pfn TlbEntry.zero) tlb
      = setAt tlb pfn TlbEntry.zero := by
    intro n
    induction n with
    | zero => rfl
    | succ n ih =>
      rw [List.range_succ, List.foldl_append, ih]
      funext j
      by_cases hj : j = pfn <;> simp [setAt, hj]
  exact h 255

/-- C8. When the current process has a PTE `e` for `vpn` (a valid one in
particular; the code does not test `valid`), with frame `f = e.pfn`,
`free_page(vpn)` leaves that PTE all zero, takes one off the map count of `f`
(from 2 to 1 in particular), changes no other map count, no other PTE of the
current process, and nothing in the ready list. -/
theorem free_page_clears (s : State) (vpn : Nat) (e : Pte)
    (he : s.current.pagetable.pte vpn = some e) :
    ∃ s', free_page s vpn = some s' ∧
      s'.current.pagetable.pte vpn = some ⟨false, 0, 0, 0⟩ ∧
      s'.mapcounts e.pfn = dec32 (s.mapcounts e.pfn) ∧
      (0 < s.mapcounts e.pfn → s.mapcounts e.pfn < 2 ^ 32 →
        s'.mapcounts e.pfn + 1 = s.mapcounts e.pfn) ∧
      (s.mapcounts e.pfn = 2 → s'.mapcounts e.pfn = 1) ∧
      (∀ f, f ≠ e.pfn → s'.mapcounts f = s.mapcounts f) ∧
      (∀ w, w ≠ vpn → s'.current.pagetable.pte w = s.current.pagetable.pte w) ∧
      s'.processes = s.processes ∧ s'.current.pid = s.current.pid := by
  obtain ⟨d, hd, hde⟩ := pte_outer he
  have hm : setAt s.mapcounts e.pfn (dec32 (s.mapcounts e.pfn)) e.pfn
      = dec32 (s.mapcounts e.pfn) := setAt_same _ _ _
  have hres : free_page s vpn = some
      { s with
        tlb := freeTlb s.tlb e.pfn
        mapcounts := setAt s.mapcounts e.pfn (dec32 (s.mapcounts e.pfn))
        current :=
          { s.current with
            pagetable := s.current.pagetable.store (vpn / NR_PTES_PER_PAGE)
              (vpn % NR_PTES_PER_PAGE) d Pte.zero } } := by
    simp only [free_page, hd, hde]
  refine ⟨_, hres, ?_, ?_, ?_, ?_, ?_, ?_, ?_, ?_⟩
  · simp only [store_pte_same]; rfl
  · exact hm
  · intro h0 h1
    simp only [hm]
    exact dec32_of_pos h0 h1
  · intro h2
    show setAt s.mapcounts e.pfn (dec32 (s.mapcounts e.pfn)) e.pfn = 1
    rw [hm, h2]
    decide
  · intro f hf
    simp [setAt, hf]
  · intro w hw
    exact store_pte_other _ _ _ _ _ hd hw
  · rfl
  · rfl

/-! ## `switch_process` -/

theorem pickFromTail_none {pid : Nat} {l : List Process} :
    pickFromTail pid l = none ↔ ∀ p, p ∈ l → p.pid ≠ pid := by
  induction l with
  | nil => simp [pickFromTail]
  | cons p ps ih =>
    unfold pickFromTail
    cases h : pickFromTail pid ps with
    | some r =>
      have hn : ¬ ∀ q, q ∈ ps → q.pid ≠ pid := fun hq => by
        rw [ih.mpr hq] at h; cases h
      constructor
      · intro hc; cases hc
      · intro hall
        exact absurd (fun q hq => hall q (List.mem_cons_of_mem _ hq)) hn
    | none =>
      have hps := ih.mp h
      by_cases hp : p.pid = pid
      · simp only [hp, if_true]
        constructor
        · intro hc; cases hc
        · intro hall
          exact absurd hp (hall p (List.mem_cons_self _ _))
      · simp only [hp, if_false, true_iff]
        intro q hq
        rcases List.mem_cons.mp hq with rfl | hq
        · exact hp
        · exact hps q hq

theorem switch_process_fork (s : State) (pid : Nat)
    (hnew : ∀ p, p ∈ s.current :: s.processes → p.pid ≠ pid) :
    switch_process s pid =
      { current :=
          { pid := pid
            pagetable := (forkTables s.current.pagetable (s.heap 0) s.mapcounts).new }
        processes :=
          { s.current with
            pagetable := (forkTables s.current.pagetable (s.heap 0) s.mapcounts).cur }
            :: s.processes
        ptbr := Ptbr.current
        tlb := flushTlb s.tlb
        mapcounts := (forkTables s.current.pagetable (s.heap 0) s.mapcounts).mapcounts
        heap := fun k => s.heap (k + 1) } := by
  unfold switch_process
  rw [pickFromTail_none.mpr hnew]

/-- The fork on a block that happens to be zero (every `outer_ptes` slot of
the block `malloc` returns is `NULL`).  For a valid PTE `e` of the parent at
`vpn < 256`: with rights 3 the parent's and the child's PTE both become
`{valid, rw = 1, same frame, private = 1}`; with rights 1 the parent's PTE is
unchanged and the child's is valid with rights 1, the same frame and
`private = 1` exactly when the parent's is (0 otherwise). -/
theorem fork_cow_on_zero_block (s : State) (pid vpn : Nat) (e : Pte)
    (hnew : ∀ p, p ∈ s.current :: s.processes → p.pid ≠ pid)
    (hblk : ∀ a, (s.heap 0).outer_ptes a = none) (hvpn : vpn < 256)
    (he : s.current.pagetable.pte vpn = some e) (hv : e.valid = true)
    (hrw : e.rw = 3 ∨ e.rw = 1) :
    ∃ parent par child,
      (switch_process s pid).processes = parent :: s.processes ∧
      parent.pid = s.current.pid ∧ (switch_process s pid).current.pid = pid ∧
      parent.pagetable.pte vpn = some par ∧
      (switch_process s pid).current.pagetable.pte vpn = some child ∧
      (e.rw = 3 → par = ⟨true, 1, e.pfn, 1⟩ ∧ child = ⟨true, 1, e.pfn, 1⟩) ∧
      (e.rw = 1 → par = e ∧ child = ⟨true, 1, e.pfn, if e.priv = 1 then 1 else 0⟩) ∧
      child.valid = par.valid ∧ child.rw = par.rw ∧ child.pfn = par.pfn ∧
      (child.priv = 1 ↔ par.priv = 1) ∧ (par.priv ≤ 1 → child = par) := by
  rw [switch_process_fork s pid hnew]
  have hp := forkTables_parent_pte s.current.pagetable (s.heap 0) s.mapcounts hblk vpn e hvpn he
  have hc := forkTables_child_pte s.current.pagetable (s.heap 0) s.mapcounts hblk vpn e hvpn he
    hv
  refine ⟨_, forkParentPte e, forkChildPte e, rfl, rfl, rfl, hp, hc, ?_, ?_, ?_⟩
  · intro h3
    simp [forkParentPte, forkChildPte, hv, h3]
  · intro h1
    simp [forkParentPte, forkChildPte, h1]
  · cases e with
    | mk v r f c =>
      simp only at hv hrw
      subst hv
      rcases hrw with h | h
      · subst h
        simp [forkParentPte, forkChildPte]
      · subst h
        simp only [forkParentPte, forkChildPte]
        refine ⟨by simp, by simp, by simp, ?_, ?_⟩
        · by_cases hc1 : c = 1 <;> simp [hc1]
        · intro hle
          have hle2 : c ≤ 1 := by simpa using hle
          have : c = 0 ∨ c = 1 := by omega
          rcases this with h0 | h0 <;> subst h0 <;> simp

theorem forkPte_ghost (a b : Nat) (acc : ForkAcc)
    (h : (acc.new.outer_ptes a = none ∨ acc.made a = true) ∧ acc.wild = false) :
    ((forkPte a b acc).new.outer_ptes a = none ∨ (forkPte a b acc).made a = true) ∧
      (forkPte a b acc).wild = false := by
  obtain ⟨hm, hw⟩ := h
  unfold forkPte
  cases hc : acc.cur.outer_ptes a with
  | none => exact ⟨hm, hw⟩
  | some cd =>
    simp only
    by_cases hv : (cd b).valid = true
    · simp only [hv, if_true]
      cases hn : acc.new.outer_ptes a with
      | none =>
        split_ifs <;> exact ⟨Or.inr (setAt_same _ _ _), hw⟩
      | some nd =>
        have hmade : acc.made a = true := by
          rcases hm with h0 | h0
          · rw [hn] at h0; cases h0
          · exact h0
        split_ifs <;> exact ⟨Or.inr hmade, by simp [hw, hmade]⟩
    · simp only [hv]
      exact ⟨hm, hw⟩

theorem forkDir_ghost (a n : Nat) (acc : ForkAcc)
    (h : (acc.new.outer_ptes a = none ∨ acc.made a = true) ∧ acc.wild = false) :
    ((List.range n).foldl (fun acc b => forkPte a b acc) acc).wild = false := by
  have hall : ∀ n : Nat,
      (((List.range n).foldl (fun acc b => forkPte a b acc) acc).new.outer_ptes a = none ∨
        ((List.range n).foldl (fun acc b => forkPte a b acc) acc).made a = true) ∧
      ((List.range n).foldl (fun acc b => forkPte a b acc) acc).wild = false := by
    intro n
    induction n with
    | zero => exact h
    | succ n ih =>
      rw [List.range_succ, List.foldl_append]
      exact forkPte_ghost a n _ ih
  exact (hall n).2

/-- On a block that happens to be zero every directory the child uses comes
from line 390: no store of the fork goes through an uninitialised pointer. -/
theorem forkTables_zero_block (cur0 block : PageTable) (mc : Nat → Nat)
    (hblk : ∀ a, block.outer_ptes a = none) :
    (forkTables cur0 block mc).wild = false := by
  have hall : ∀ m : Nat,
      ((List.range m).foldl (fun acc a => forkDir a acc)
        ⟨cur0, block, mc, fun _ => false, false⟩).wild = false := by
    intro m
    induction m with
    | zero => rfl
    | succ m ih =>
      rw [List.range_succ, List.foldl_append]
      have hslot := ((forkTables_inv cur0 block mc hblk m) m).2 (Nat.lt_irrefl m)
      simp only [List.foldl_cons, List.foldl_nil]
      unfold forkDir
      split
      · exact forkDir_ghost m 16 _ ⟨Or.inl hslot.2, ih⟩
      · exact ih
  exact hall 16

/-- On a block that happens to be zero, and on the resume path, the call has
no undefined behaviour. -/
theorem switch_process_defined (s : State) (pid : Nat)
    (h : (∀ a, (s.heap 0).outer_ptes a = none) ∨
      ∃ p, p ∈ s.current :: s.processes ∧ p.pid = pid) :
    switch_process_undefined s pid = false := by
  unfold switch_process_undefined
  cases hp : pickFromTail pid (s.current :: s.processes) with
  | some r => rfl
  | none =>
    rcases h with hblk | ⟨p, hmem, hpid⟩
    · exact forkTables_zero_block _ _ _ hblk
    · exact absurd hpid (pickFromTail_none.mp hp p hmem)

set_option maxRecDepth 100000 in
/-- C4. In `State.dirtyHeap` page 0 of process 0 is valid with rights 3, no
process has id 1, and slot 0 of the block `malloc` returns for the child is a
non-NULL garbage pointer.  `switch_process(1)` takes the fork path; the test
of line 388 reads that slot, finds it non-NULL and allocates nothing, and the
stores of lines 392-414 go through the garbage pointer (`wild`): undefined
behaviour, a fault when nothing is mapped at that address.  The child then has
no directory of its own for slot 0: its page 1, which the parent never mapped,
reads as the garbage PTE behind the pointer. -/
theorem fork_stores_through_garbage :
    State.dirtyHeap.current.pagetable.pte 0 = some ⟨true, 3, 0, 0⟩ ∧
    (∀ p, p ∈ State.dirtyHeap.current :: State.dirtyHeap.processes → p.pid ≠ 1) ∧
    ((State.dirtyHeap.heap 0).outer_ptes 0).isSome = true ∧
    (forkTables State.dirtyHeap.current.pagetable (State.dirtyHeap.heap 0)
      State.dirtyHeap.mapcounts).made 0 = false ∧
    (forkTables State.dirtyHeap.current.pagetable (State.dirtyHeap.heap 0)
      State.dirtyHeap.mapcounts).wild = true ∧
    switch_process_undefined State.dirtyHeap 1 = true ∧
    State.dirtyHeap.current.pagetable.pte 1 = some ⟨false, 0, 0, 0⟩ ∧
    (switch_process State.dirtyHeap 1).current.pagetable.pte 1 = some ⟨true, 2, 77, 5⟩ := by
  refine ⟨by decide, ?_, by decide, by decide, by decide, by decide, by decide, by decide⟩
  intro p hp
  rcases List.mem_cons.mp hp with rfl | hp
  · decide
  · cases hp

theorem flushTlb_eq (tlb : Nat → TlbEntry) (n : Nat) :
    (List.range n).foldl (fun t i => setAt t i TlbEntry.zero) tlb
      = fun j => if j < n then TlbEntry.zero else tlb j := by
  induction n with
  | zero => funext j; simp
  | succ n ih =>
    rw [List.range_succ, List.foldl_append, ih]
    funext j
    by_cases hj : j = n
    · subst hj
      simp [setAt]
    · have e : (j < n + 1) = (j < n) := by apply propext; omega
      simp [setAt, hj, e]

theorem switch_process_tlb (s : State) (pid : Nat) :
    (switch_process s pid).tlb = flushTlb s.tlb := by
  unfold switch_process
  cases pickFromTail pid (s.current :: s.processes) with
  | none => simp only
  | some r => simp only

/-- After `switch_process` every one of the 256 TLB entries is all zero, on
the resume path and on the fork path. -/
theorem switch_process_flushes (s : State) (pid i : Nat) (hi : i < NR_TLB_ENTRIES) :
    (switch_process s pid).tlb i = TlbEntry.zero := by
  rw [switch_process_tlb, flushTlb, flushTlb_eq]
  simp [hi]

/-- After `switch_process`, `lookup_tlb` never reports a hit: for `vpn = 0`
it returns `false` (entry 0 has `vpn` field 0 and is invalid); for any other
`vpn` no entry matches and control reaches the end of the function. -/
theorem lookup_after_switch (s : State) (pid vpn rw : Nat) :
    lookup_tlb (switch_process s pid) vpn rw =
      if vpn = 0 then LookupResult.miss else LookupResult.fellOff := by
  by_cases hz : vpn = 0
  · subst hz
    have h0 := switch_process_flushes s pid 0 (by decide)
    have hf : firstTlbFor (switch_process s pid).tlb 0 = some 0 := by
      obtain ⟨k, hk⟩ := firstIdx_exists
        (p := fun i => ((switch_process s pid).tlb i).vpn == 0) (n := NR_TLB_ENTRIES)
        ⟨0, by decide, by simp [h0, TlbEntry.zero]⟩
      obtain ⟨_, _, k3⟩ := firstIdx_some hk
      have hk0 : k = 0 := by
        by_contra hne
        have := k3 0 (Nat.pos_of_ne_zero hne)
        simp [h0, TlbEntry.zero] at this
      rw [hk0] at hk; exact hk
    simp [lookup_tlb, hf, h0, TlbEntry.zero]
  · have hf : firstTlbFor (switch_process s pid).tlb vpn = none := by
      apply firstIdx_none.mpr
      intro j hj
      rw [switch_process_flushes s pid j hj]
      simpa [TlbEntry.zero] using fun h => hz h.symm
    simp [lookup_tlb, hf, hz]

/-! ## Checked instances -/

theorem alloc_page_lowest_free_witness :
    (∃ i, i < NR_PAGEFRAMES ∧ State.boot.mapcounts i = 0) ∧
    ∃ f, (alloc_page State.boot 0 3).1 = f ∧ f < NR_PAGEFRAMES ∧ State.boot.mapcounts f = 0 ∧
      (∀ j, j < f → State.boot.mapcounts j ≠ 0) ∧
      (alloc_page State.boot 0 3).2.activeTable.pte 0 = some ⟨true, 3, f, 0⟩ ∧
      (alloc_page State.boot 0 3).2.mapcounts f = 1 ∧
      ∀ g, g ≠ f → (alloc_page State.boot 0 3).2.mapcounts g = State.boot.mapcounts g :=
  ⟨⟨0, by decide, rfl⟩,
    alloc_page_lowest_free State.boot 0 3 ⟨0, by decide, rfl⟩ (by decide) (by decide)⟩

theorem fork_cow_on_zero_block_instance :
    State.onePage.current.pagetable.pte 0 = some ⟨true, 3, 0, 0⟩ ∧
    ∃ parent par child,
      (switch_process State.onePage 1).processes = parent :: State.onePage.processes ∧
      parent.pid = State.onePage.current.pid ∧
      (switch_process State.onePage 1).current.pid = 1 ∧
      parent.pagetable.pte 0 = some par ∧
      (switch_process State.onePage 1).current.pagetable.pte 0 = some child ∧
      ((3 : Nat) = 3 → par = ⟨true, 1, 0, 1⟩ ∧ child = ⟨true, 1, 0, 1⟩) ∧
      ((3 : Nat) = 1 → par = ⟨true, 3, 0, 0⟩ ∧
        child = ⟨true, 1, 0, if (0 : Nat) = 1 then 1 else 0⟩) ∧
      child.valid = par.valid ∧ child.rw = par.rw ∧ child.pfn = par.pfn ∧
      (child.priv = 1 ↔ par.priv = 1) ∧ (par.priv ≤ 1 → child = par) :=
  ⟨by decide,
    fork_cow_on_zero_block State.onePage 1 0 ⟨true, 3, 0, 0⟩
      (by intro p hp; rcases List.mem_cons.mp hp with rfl | hp
          · decide
          · cases hp)
      (fun _ => rfl) (by decide) (by decide) rfl (Or.inl rfl)⟩

theorem handle_page_fault_cow_shared_witness :
    State.forked.current.pagetable.pte 0 = some ⟨true, 1, 0, 1⟩ ∧
    1 < State.forked.mapcounts 0 ∧
    ∃ g s', handle_page_fault State.forked 0 2 = Outcome.returned true s' ∧
      g < NR_PAGEFRAMES ∧ State.forked.mapcounts g = 0 ∧
      (∀ j, j < g → State.forked.mapcounts j ≠ 0) ∧
      s'.current.pagetable.pte 0 = some ⟨true, 3, g, 0⟩ ∧
      s'.mapcounts g = 1 ∧
      s'.mapcounts 0 = dec32 (State.forked.mapcounts 0) ∧
      (State.forked.mapcounts 0 < 2 ^ 32 → s'.mapcounts 0 + 1 = State.forked.mapcounts 0) ∧
      (∀ f, f ≠ g → f ≠ 0 → s'.mapcounts f = State.forked.mapcounts f) ∧
      s'.processes = State.forked.processes ∧ s'.current.pid = State.forked.current.pid :=
  ⟨by decide, by decide,
    handle_page_fault_cow_shared State.forked 0 ⟨true, 1, 0, 1⟩ (by decide) rfl (by decide)
      ⟨1, by decide, by decide⟩⟩

theorem handle_page_fault_cow_sole_witness :
    State.soleOwner.current.pagetable.pte 0 = some ⟨true, 1, 0, 1⟩ ∧
    State.soleOwner.mapcounts 0 = 1 ∧
    ∃ s', handle_page_fault State.soleOwner 0 2 = Outcome.returned true s' ∧
      s'.current.pagetable.pte 0 = some ⟨true, 3, 0, 0⟩ ∧
      s'.mapcounts = State.soleOwner.mapcounts ∧
      (∀ i, i < NR_TLB_ENTRIES → (State.soleOwner.tlb i).vpn = 0 →
        (∀ j, j < i → (State.soleOwner.tlb j).vpn ≠ 0) → (s'.tlb i).rw = 3) :=
  ⟨by decide, by decide,
    handle_page_fault_cow_sole State.soleOwner 0 ⟨true, 1, 0, 1⟩ (by decide) rfl (by decide)⟩

theorem free_page_clears_witness :
    State.forked.current.pagetable.pte 0 = some ⟨true, 1, 0, 1⟩ ∧
    State.forked.mapcounts 0 = 2 ∧
    ∃ s', free_page State.forked 0 = some s' ∧
      s'.current.pagetable.pte 0 = some ⟨false, 0, 0, 0⟩ ∧
      s'.mapcounts 0 = dec32 (State.forked.mapcounts 0) ∧
      (0 < State.forked.mapcounts 0 → State.forked.mapcounts 0 < 2 ^ 32 →
        s'.mapcounts 0 + 1 = State.forked.mapcounts 0) ∧
      (State.forked.mapcounts 0 = 2 → s'.mapcounts 0 = 1) ∧
      (∀ f, f ≠ 0 → s'.mapcounts f = State.forked.mapcounts f) ∧
      (∀ w, w ≠ 0 → s'.current.pagetable.pte w = State.forked.current.pagetable.pte w) ∧
      s'.processes = State.forked.processes ∧ s'.current.pid = State.forked.current.pid :=
  ⟨by decide, by decide, free_page_clears State.forked 0 ⟨true, 1, 0, 1⟩ (by decide)⟩

/-! ## Inputs on which the code departs from its documentation -/

set_option maxRecDepth 100000 in
/-- C2. `RefcountOK` holds in `State.full` (all 128 frames mapped once) and is
lost by `alloc_page(5, 1)`: with no free frame the PTE is still marked valid,
with its stale frame 0, and no map count moves.  It also holds in
`State.writeOnly` and is lost by `switch_process(1)`: the child's PTE for the
write-only page 1 is marked valid, but no frame and no map count is stored. -/
theorem refcount_not_preserved :
    (RefcountOK State.full ∧ ¬ RefcountOK (alloc_page State.full 5 1).2) ∧
    (RefcountOK State.writeOnly ∧ ¬ RefcountOK (switch_process State.writeOnly 1)) := by
  refine ⟨⟨by decide, fun h => ?_⟩, ⟨by decide, fun h => ?_⟩⟩
  · exact absurd (h 0 (by decide)) (by decide)
  · exact absurd (h 0 (by decide)) (by decide)

/-- C3. Forking from `State.writeOnly`: the parent's page 1 is valid with
rights 2 in frame 1, no process has id 1, yet after `switch_process(1)` the
child's PTE for page 1 is valid with frame field 0 and rights 0, and the map
count of frame 1 is still 1. -/
theorem fork_skips_write_only :
    State.writeOnly.current.pagetable.pte 1 = some ⟨true, 2, 1, 0⟩ ∧
    State.writeOnly.current.pid = 0 ∧ State.writeOnly.processes.length = 0 ∧
    (switch_process State.writeOnly 1).current.pid = 1 ∧
    (switch_process State.writeOnly 1).current.pagetable.pte 1 = some ⟨true, 0, 0, 0⟩ ∧
    State.writeOnly.mapcounts 1 = 1 ∧
    (switch_process State.writeOnly 1).mapcounts 1 = 1 := by
  decide

/-- C7. In `State.cached` the TLB translates page 1.  After
`switch_process(7)` every TLB entry is invalid, but `lookup_tlb(1, 1)` does not
return `false`: no entry has `vpn` field 1, the loop ends and control reaches
the closing brace of the function without a `return`. -/
theorem lookup_after_switch_no_return :
    lookup_tlb State.cached 1 1 = LookupResult.hit 1 ∧
    (∀ i, i < NR_TLB_ENTRIES → ((switch_process State.cached 7).tlb i).valid = false) ∧
    lookup_tlb (switch_process State.cached 7) 1 1 = LookupResult.fellOff ∧
    lookup_tlb (switch_process State.cached 7) 1 1 ≠ LookupResult.miss := by
  refine ⟨by decide, ?_, ?_, ?_⟩
  · intro i hi
    rw [switch_process_flushes _ _ i hi]; rfl
  · rw [lookup_after_switch]; rfl
  · rw [lookup_after_switch]; decide

set_option maxRecDepth 100000 in
/-- C9. In `State.cached` page 1 is valid in frame 1 and TLB slot 0 caches it.
`free_page(1)` zeroes `tlb[1]` (the slot indexed by the frame number); slot 0
stays valid with `vpn` field 1 and `pfn` field 1, and `lookup_tlb(1, 1)` then
reports a hit. -/
theorem free_page_leaves_tlb_entry :
    State.cached.current.pagetable.pte 1 = some ⟨true, 1, 1, 0⟩ ∧
    State.cached.tlb 0 = ⟨true, 1, 1, 1, 0⟩ ∧
    ∃ s', free_page State.cached 1 = some s' ∧
      s'.tlb 0 = ⟨true, 1, 1, 1, 0⟩ ∧
      lookup_tlb s' 1 1 = LookupResult.hit 0 := by
  refine ⟨by decide, by decide, _, rfl, ?_, ?_⟩
  · decide
  · decide

set_option maxRecDepth 100000 in
/-- C10. In `State.full` no frame below 128 has map count 0, yet
`alloc_page(5, 1)` returns 0, the stale frame field of the PTE, not the
failure value `-1`. -/
theorem alloc_page_full_returns_frame :
    (∀ f, f < NR_PAGEFRAMES → State.full.mapcounts f ≠ 0) ∧
    (alloc_page State.full 5 1).1 = 0 ∧
    (alloc_page State.full 5 1).1 ≠ UINT_MINUS_ONE := by
  refine ⟨?_, by decide, by decide⟩
  intro f hf
  have hf2 : f < 128 := hf
  simp [State.full, hf2]

/-! ## `handle_page_fault`: the unresolved cases -/

theorem handle_page_fault_null (s : State) (vpn rw : Nat)
    (h : s.current.pagetable.outer_ptes (vpn / NR_PTES_PER_PAGE) = none) :
    handle_page_fault s vpn rw = Outcome.nullDeref := by
  simp only [handle_page_fault, h]

theorem handle_page_fault_shared_unresolved (s : State) (vpn rw : Nat) (e : Pte)
    (he : s.current.pagetable.pte vpn = some e) (hcow : e.priv = 1)
    (hshared : 1 < s.mapcounts e.pfn)
    (hno : rw ≠ 2 ∨ ∀ j, j < NR_PAGEFRAMES → s.mapcounts j ≠ 0) :
    handle_page_fault s vpn rw =
      Outcome.fellOff { s with tlb := tlbRepoint s.tlb vpn e.pfn } := by
  obtain ⟨d, hd, hde⟩ := pte_outer he
  have hscan : (if rw = 2 then firstFreeFrame s.mapcounts else none) = none := by
    rcases hno with h | h
    · simp [h]
    · simp [firstFreeFrame_none.mpr h]
  have hgt : s.mapcounts e.pfn > 1 := hshared
  simp only [handle_page_fault, hd, hde, hcow, hgt, hscan, if_true]

theorem handle_page_fault_sole_unresolved (s : State) (vpn rw : Nat) (e : Pte)
    (he : s.current.pagetable.pte vpn = some e) (hcow : e.priv = 1)
    (hsole : ¬ 1 < s.mapcounts e.pfn) (hrw : rw ≠ 2) :
    handle_page_fault s vpn rw = Outcome.fellOff s := by
  obtain ⟨d, hd, hde⟩ := pte_outer he
  have hgt : ¬ s.mapcounts e.pfn > 1 := hsole
  simp only [handle_page_fault, hd, hde, hcow, hgt, hrw, if_true, if_false]

/-- C11. When the current process has a PTE for `vpn` (its inner directory
exists) and that PTE is not marked COW (`private != 1`, valid or not),
`handle_page_fault(vpn, rw)` returns `false` and the whole state (page
tables, map counts, TLB) is the one before the call. -/
theorem handle_page_fault_not_cow (s : State) (vpn rw : Nat) (e : Pte)
    (he : s.current.pagetable.pte vpn = some e) (hn : e.priv ≠ 1) :
    handle_page_fault s vpn rw = Outcome.returned false s := by
  obtain ⟨d, hd, hde⟩ := pte_outer he
  simp only [handle_page_fault, hd, hde, hn, if_false]

theorem handle_page_fault_not_cow_witness :
    State.onePage.current.pagetable.pte 0 = some ⟨true, 3, 0, 0⟩ ∧
    handle_page_fault State.onePage 0 2 = Outcome.returned false State.onePage :=
  ⟨by decide,
    handle_page_fault_not_cow State.onePage 0 2 ⟨true, 3, 0, 0⟩ (by decide) (by decide)⟩

/-- C12. Two COW faults the handler does not resolve.  In `State.fullForked`
(page 0 COW, its frame mapped twice, no free frame) the write fault
`handle_page_fault(0, 2)` does not return `false`: control reaches the end of
the function with no `return`.  In `State.forked` (page 0 COW) the read fault
`handle_page_fault(0, 1)` ends the same way. -/
theorem cow_fault_unresolved_no_return :
    (State.fullForked.current.pagetable.pte 0 = some ⟨true, 1, 0, 1⟩ ∧
      1 < State.fullForked.mapcounts 0 ∧
      (∀ j, j < NR_PAGEFRAMES → State.fullForked.mapcounts j ≠ 0) ∧
      (∃ s', handle_page_fault State.fullForked 0 2 = Outcome.fellOff s') ∧
      ∀ s', handle_page_fault State.fullForked 0 2 ≠ Outcome.returned false s') ∧
    (State.forked.current.pagetable.pte 0 = some ⟨true, 1, 0, 1⟩ ∧
      (∃ s', handle_page_fault State.forked 0 1 = Outcome.fellOff s') ∧
      ∀ s', handle_page_fault State.forked 0 1 ≠ Outcome.returned false s') := by
  have hfull : ∀ j, j < NR_PAGEFRAMES → State.fullForked.mapcounts j ≠ 0 := by
    intro j hj
    have hj2 : j < 128 := hj
    simp [State.fullForked, hj2]
  have h1 := handle_page_fault_shared_unresolved State.fullForked 0 2 ⟨true, 1, 0, 1⟩
    (by decide) rfl (by decide) (Or.inr hfull)
  have h2 := handle_page_fault_shared_unresolved State.forked 0 1 ⟨true, 1, 0, 1⟩
    (by decide) rfl (by decide) (Or.inl (by decide))
  refine ⟨⟨by decide, by decide, hfull, ⟨_, h1⟩, ?_⟩, ⟨by decide, ⟨_, h2⟩, ?_⟩⟩
  · intro s' hc
    rw [h1] at hc
    cases hc
  · intro s' hc
    rw [h2] at hc
    cases hc

/-- C17. At start-up no inner directory exists; `handle_page_fault(0, 1)` does
not return `false`: line 267 reads `outer_ptes[0]->ptes[0]` through the `NULL`
outer slot. -/
theorem handle_page_fault_unmapped_derefs_null :
    State.boot.current.pagetable.outer_ptes (0 / NR_PTES_PER_PAGE) = none ∧
    handle_page_fault State.boot 0 1 = Outcome.nullDeref ∧
    ∀ s', handle_page_fault State.boot 0 1 ≠ Outcome.returned false s' := by
  have h := handle_page_fault_null State.boot 0 1 rfl
  refine ⟨rfl, h, ?_⟩
  intro s' hc
  rw [h] at hc
  cases hc

/-- C18. In `State.fullForked` TLB slot 0 caches page 0 with rights 1 and the
PTE of page 0 is COW.  The write fault `handle_page_fault(0, 2)` finds no free
frame and does not return `true`, yet afterwards TLB slot 0 has rights 3 while
the PTE is still read-only and marked COW. -/
theorem failed_cow_fault_rewrites_tlb :
    State.fullForked.tlb 0 = ⟨true, 1, 0, 0, 0⟩ ∧
    ∃ s', handle_page_fault State.fullForked 0 2 = Outcome.fellOff s' ∧
      s'.tlb 0 = ⟨true, 3, 0, 0, 0⟩ ∧
      s'.current.pagetable.pte 0 = some ⟨true, 1, 0, 1⟩ := by
  have hfull : ∀ j, j < NR_PAGEFRAMES → State.fullForked.mapcounts j ≠ 0 := by
    intro j hj
    have hj2 : j < 128 := hj
    simp [State.fullForked, hj2]
  have h1 := handle_page_fault_shared_unresolved State.fullForked 0 2 ⟨true, 1, 0, 1⟩
    (by decide) rfl (by decide) (Or.inr hfull)
  refine ⟨by decide, _, h1, ?_, ?_⟩
  · show tlbRepoint State.fullForked.tlb 0 0 0 = ⟨true, 3, 0, 0, 0⟩
    decide
  · show State.fullForked.current.pagetable.pte 0 = some ⟨true, 1, 0, 1⟩
    decide

/-! ## `lookup_tlb` and `insert_tlb` -/

theorem lookupHit_frame {s : State} {vpn f : Nat} (h : lookupHit s vpn = LookupResult.hit f) :
    ∃ e, s.activeTable.pte vpn = some e ∧ e.pfn = f := by
  unfold lookupHit at h
  cases hp : s.activeTable.pte vpn with
  | none => rw [hp] at h; cases h
  | some e =>
    rw [hp] at h
    exact ⟨e, rfl, by simpa using h⟩

theorem lookup_tlb_hit_source {s : State} {vpn rw f : Nat}
    (h : lookup_tlb s vpn rw = LookupResult.hit f) : lookupHit s vpn = LookupResult.hit f := by
  unfold lookup_tlb at h
  cases hi : firstTlbFor s.tlb vpn with
  | none => rw [hi] at h; cases h
  | some i =>
    rw [hi] at h
    simp only at h
    split_ifs at h <;> exact h

theorem lookup_tlb_congr (s : State) (t : Nat → TlbEntry) (vpn rw : Nat)
    (ht : ∀ i, (t i).valid = (s.tlb i).valid ∧ (t i).rw = (s.tlb i).rw ∧
      (t i).vpn = (s.tlb i).vpn) :
    lookup_tlb { s with tlb := t } vpn rw = lookup_tlb s vpn rw := by
  have hp : (fun i => (t i).vpn == vpn) = (fun i => (s.tlb i).vpn == vpn) := by
    funext i; rw [(ht i).2.2]
  have hf : firstTlbFor t vpn = firstTlbFor s.tlb vpn := by
    unfold firstTlbFor; rw [hp]
  unfold lookup_tlb
  simp only [hf]
  cases firstTlbFor s.tlb vpn with
  | none => rfl
  | some i =>
    simp only [(ht i).1, (ht i).2.1]
    rfl

/-- C15. Whenever `lookup_tlb(vpn, rw)` returns `true`, the frame it stores in
`*pfn` is the `pfn` field of the PTE of `vpn` in the page table `ptbr` points
at; the `pfn` fields of the TLB entries play no part: with any other TLB that
has the same `valid`, `rw` and `vpn` fields the call returns `true` with the
same frame. -/
theorem lookup_tlb_frame_from_page_table (s : State) (vpn rw f : Nat)
    (h : lookup_tlb s vpn rw = LookupResult.hit f) :
    (∃ e, s.activeTable.pte vpn = some e ∧ e.pfn = f) ∧
    ∀ t : Nat → TlbEntry,
      (∀ i, (t i).valid = (s.tlb i).valid ∧ (t i).rw = (s.tlb i).rw ∧
        (t i).vpn = (s.tlb i).vpn) →
      lookup_tlb { s with tlb := t } vpn rw = LookupResult.hit f := by
  refine ⟨lookupHit_frame (lookup_tlb_hit_source h), ?_⟩
  intro t ht
  rw [lookup_tlb_congr s t vpn rw ht, h]

set_option maxRecDepth 100000 in
theorem lookup_tlb_frame_from_page_table_witness :
    lookup_tlb State.stale 1 1 = LookupResult.hit 0 ∧
    (State.stale.tlb 0).pfn = 1 ∧
    ((∃ e, State.stale.activeTable.pte 1 = some e ∧ e.pfn = 0) ∧
    ∀ t : Nat → TlbEntry,
      (∀ i, (t i).valid = (State.stale.tlb i).valid ∧ (t i).rw = (State.stale.tlb i).rw ∧
        (t i).vpn = (State.stale.tlb i).vpn) →
      lookup_tlb { State.stale with tlb := t } 1 1 = LookupResult.hit 0) :=
  ⟨by decide, by decide, lookup_tlb_frame_from_page_table State.stale 1 1 0 (by decide)⟩

set_option maxRecDepth 100000 in
/-- C14. In `State.cached` no TLB entry has `vpn` field 2, and `lookup_tlb(2, 1)`
does not return `false`: the loop ends and control reaches the closing brace
without a `return`.  In `State.shadowed` slot 1 is a valid entry for page 0
with rights 1, yet `lookup_tlb(0, 1)` returns `false`: the scan stops at slot
0, an invalid entry whose `vpn` field is 0. -/
theorem lookup_tlb_not_exact :
    ((∀ i, i < NR_TLB_ENTRIES → (State.cached.tlb i).vpn ≠ 2) ∧
      lookup_tlb State.cached 2 1 = LookupResult.fellOff ∧
      lookup_tlb State.cached 2 1 ≠ LookupResult.miss) ∧
    (State.shadowed.tlb 1 = ⟨true, 1, 0, 0, 0⟩ ∧
      State.shadowed.tlb 0 = ⟨false, 0, 0, 0, 0⟩ ∧
      lookup_tlb State.shadowed 0 1 = LookupResult.miss) := by
  decide

set_option maxRecDepth 100000 in
/-- C16. In `State.cached` TLB slot 0 is the only valid entry, for page 1 with
rights 1, and slot 1 is free.  After `insert_tlb(1, 3, 1)` slot 0 is unchanged
and slot 1 is a second valid entry for page 1: the existing entry is not
updated in place. -/
theorem insert_tlb_duplicates :
    State.cached.tlb 0 = ⟨true, 1, 1, 1, 0⟩ ∧
    (∀ i, i < NR_TLB_ENTRIES → i ≠ 0 → (State.cached.tlb i).valid = false) ∧
    (insert_tlb State.cached 1 3 1).tlb 0 = ⟨true, 1, 1, 1, 0⟩ ∧
    (insert_tlb State.cached 1 3 1).tlb 1 = ⟨true, 3, 1, 1, 0⟩ := by
  decide

/-! ## `switch_process`: which process becomes current -/

/-- A `vpn` outside `[0, 256)` is rejected with `-1` and the state is the one
before the call. -/
theorem alloc_page_out_of_range (s : State) (vpn rw : Nat) (h : 256 ≤ vpn) :
    alloc_page s vpn rw = (UINT_MINUS_ONE, s) := by
  have hge : vpn ≥ 256 := h
  simp only [alloc_page, hge, if_true]

/-- With no free frame `alloc_page` changes no map count. -/
theorem alloc_page_full_mapcounts (s : State) (vpn rw : Nat)
    (h : ∀ j, j < NR_PAGEFRAMES → s.mapcounts j ≠ 0) :
    (alloc_page s vpn rw).2.mapcounts = s.mapcounts := by
  have hf := firstFreeFrame_none.mpr h
  unfold alloc_page
  by_cases hge : vpn ≥ 256
  · simp only [hge, if_true]
  · simp only [hge, if_false, hf]
    rfl

set_option maxRecDepth 100000 in
/-- C19. In `State.full` no frame is free and the PTE of page 5 is all zero
(invalid).  The failing call `alloc_page(5, 1)` leaves that PTE marked valid
with rights 1: the active page table is not the one before the call. -/
theorem alloc_page_failure_marks_valid :
    (∀ f, f < NR_PAGEFRAMES → State.full.mapcounts f ≠ 0) ∧
    State.full.activeTable.pte 5 = some ⟨false, 0, 0, 0⟩ ∧
    (alloc_page State.full 5 1).2.activeTable.pte 5 = some ⟨true, 1, 0, 0⟩ ∧
    (alloc_page State.full 5 1).2.mapcounts = State.full.mapcounts := by
  have hfull : ∀ f, f < NR_PAGEFRAMES → State.full.mapcounts f ≠ 0 := by
    intro f hf
    have hf2 : f < 128 := hf
    simp [State.full, hf2]
  exact ⟨hfull, by decide, by decide, alloc_page_full_mapcounts State.full 5 1 hfull⟩

end VM
